import Mathlib

/-!
Verification of the screener scraping toolkit.

This file gives a shallow embedding, in Lean, of the pure decision logic of
the repository's two main scrapers (`scraperv1.py` and `scraper.py`):
filename cleaning, document-link classification over an HTML tree model,
category-to-folder mapping, extension selection for downloads, the
post-download error-page check, the table-saving loop with its collision
suffixes, and the modal concall-notes loop.  External collaborators
(the HTTP stack, Selenium, pandas parsing, the Python standard library's
`urlparse`/`splitext`) are modelled by explicit parameters or by small
faithful string functions, as noted in the doc comments.
-/

namespace Screener

/-- Python's `pat in s` substring test, at the character-list level:
`listStartsWith l pat` holds when `pat` is an initial segment of `l`. -/
def listStartsWith : List Char → List Char → Bool
  | _, [] => true
  | [], _ :: _ => false
  | a :: as, b :: bs => a == b && listStartsWith as bs


/-- Scans `l` for an occurrence of the contiguous pattern `pat`. -/
def listContainsSeq : List Char → List Char → Bool
  | [], pat => pat.isEmpty
  | a :: as, pat => listStartsWith (a :: as) pat || listContainsSeq as pat


/-- Python's `pat in s` membership test on strings. -/
def strContains (s pat : String) : Bool :=
  listContainsSeq s.toList pat.toList


/-- Python's `s.lower()` for the ASCII strings handled here, as a
kernel-computable character map. -/
def pyLower (s : String) : String := (s.toList.map Char.toLower).asString


/-- Strips leading and trailing whitespace from a character list. -/
def trimChars (cs : List Char) : List Char :=
  ((cs.dropWhile Char.isWhitespace).reverse.dropWhile Char.isWhitespace).reverse


/-- Python's `s.strip()`. -/
def pyStrip (s : String) : String := (trimChars s.toList).asString


/-- Python's `s.endswith(suffix)`. -/
def strEndsWith (s suf : String) : Bool :=
  listStartsWith s.toList.reverse suf.toList.reverse


/-- Joins strings with a separator, like Python's `sep.join(parts)`. -/
def pyJoin (sep : String) : List String → String
  | [] => ""
  | [x] => x
  | x :: xs => x ++ sep ++ pyJoin sep xs


/-- Little-endian decimal digits of `n`, with explicit fuel so that the
definition is structural and kernel-computable; `natDigits` below supplies
fuel `n`, which is enough since `n / 10 < n` for `n > 0`. -/
def natDigitsAux : Nat → Nat → List Nat
  | _, 0 => []
  | 0, _ + 1 => []
  | fuel + 1, n + 1 => (n + 1) % 10 :: natDigitsAux fuel ((n + 1) / 10)


/-- Little-endian decimal digits of `n` (empty for `0`). -/
def natDigits (n : Nat) : List Nat := natDigitsAux n n


/-- Reassembles a little-endian decimal digit list into a number. -/
def natUndigits : List Nat → Nat
  | [] => 0
  | d :: ds => d + 10 * natUndigits ds


/-- Python's `str(n)` / an f-string interpolation of a nonnegative integer:
most-significant-first decimal digits. -/
def natDecimal (n : Nat) : String :=
  if n = 0 then "0" else ((natDigits n).reverse.map Nat.digitChar).asString


/-- Characters removed by `clean_filename` in both scrapers:
the regex class `[<>:"/\\|?*]`. -/
def forbiddenFilenameChars : List Char := ['<', '>', ':', '\"', '/', '\\', '|', '?', '*']


/-- Python's `re.sub(r'\s+', '_', s)` applied after `strip()`: each
maximal run of whitespace becomes a single underscore.  The Boolean flag
records whether the previous character was whitespace, keeping the
recursion structural. -/
def collapseWsAux : Bool → List Char → List Char
  | _, [] => []
  | inWs, c :: cs =>
    if c.isWhitespace then (if inWs then [] else ['_']) ++ collapseWsAux true cs
    else c :: collapseWsAux false cs


/-- Replaces every maximal whitespace run by one underscore. -/
def collapseWs (cs : List Char) : List Char := collapseWsAux false cs


/-- Embedding of `clean_filename` (identical in `scraperv1.py` and
`scraper.py`): drop the forbidden characters, strip, collapse whitespace
runs to underscores, replace slashes (a no-op after the filter, kept for
faithfulness), truncate to 150 characters. -/
def clean_filename (text : String) : String :=
  let t1 := text.toList.filter (fun c => !(forbiddenFilenameChars.contains c))
  let t2 := collapseWs (trimChars t1)
  let t3 := (t2.map (fun c => if c = '/' then '_' else c)).map
    (fun c => if c = '\\' then '_' else c)
  (t3.take 150).asString


/-- Candidate table names in the order tried by the collision loop of
`scrape_screener_company`: `base`, then `base_1`, `base_2`, ...  The list is
cut off after `n + 1` suffixed candidates; when `n` is the number of names
already taken this is enough, by pigeonhole, to contain a free name, so the
cutoff is only a termination device and does not change the semantics of the
unbounded `while` loop in the source. -/
def candNames (base : String) (n : Nat) : List String :=
  base :: (List.range (n + 1)).map (fun i => base ++ "_" ++ natDecimal (i + 1))


/-- Embedding of the duplicate-name `while` loop at the table-saving step:
`name = base_name; counter = 1; while name in tables_saved: name =
base_name + "_" + str(counter); counter += 1`.  Returns the first candidate
not yet among `names`. -/
def freshName (names : List String) (base : String) : String :=
  ((candNames base names.length).find? (fun nm => !(decide (nm ∈ names)))).getD base


/-- Model of a parsed HTML tree as handed around via BeautifulSoup: an
element with a tag name, attributes and children, or a navigable string. -/
inductive HNode where
  | elem (tag : String) (attrs : List (String × String)) (children : List HNode)
  | text (s : String)


mutual

/-- Decidable equality of HTML nodes (the automatic derivation does not
handle the nested `List`). -/
def hnodeDecEq : (a b : HNode) → Decidable (a = b)
  | .elem t1 a1 c1, .elem t2 a2 c2 =>
    if h1 : t1 = t2 then
      if h2 : a1 = a2 then
        match hnodeListDecEq c1 c2 with
        | isTrue h3 => isTrue (by rw [h1, h2, h3])
        | isFalse h3 => isFalse (by intro he; injection he with e1 e2 e3; exact h3 e3)
      else isFalse (by intro he; injection he with e1 e2 e3; exact h2 e2)
    else isFalse (by intro he; injection he with e1 e2 e3; exact h1 e1)
  | .text s1, .text s2 =>
    if h : s1 = s2 then isTrue (by rw [h])
    else isFalse (by intro he; injection he with e; exact h e)
  | .elem t1 a1 c1, .text s2 => isFalse (fun he => HNode.noConfusion he)
  | .text s1, .elem t2 a2 c2 => isFalse (fun he => HNode.noConfusion he)

/-- Decidable equality of HTML node lists. -/
def hnodeListDecEq : (as bs : List HNode) → Decidable (as = bs)
  | [], [] => isTrue rfl
  | [], _ :: _ => isFalse (fun he => List.noConfusion he)
  | _ :: _, [] => isFalse (fun he => List.noConfusion he)
  | x :: xs, y :: ys =>
    match hnodeDecEq x y with
    | isFalse h => isFalse (by intro he; injection he with e1 e2; exact h e1)
    | isTrue h1 =>
      match hnodeListDecEq xs ys with
      | isTrue h2 => isTrue (by rw [h1, h2])
      | isFalse h2 => isFalse (by intro he; injection he with e1 e2; exact h2 e2)

end


instance : DecidableEq HNode := hnodeDecEq


/-- The tag of an element node; `none` for a navigable string (Python
`node.name` is `None` for strings). -/
def HNode.tag? : HNode → Option String
  | .elem t _ _ => some t
  | .text _ => none


/-- Children of a node (strings have none). -/
def childrenOf : HNode → List HNode
  | .elem _ _ cs => cs
  | .text _ => []


/-- Whether the node is an element whose tag is in `tags`. -/
def isElemOf (tags : List String) : HNode → Bool
  | .elem t _ _ => tags.contains t
  | .text _ => false


/-- Whether an element carries the attribute `key` (BeautifulSoup
`find_all(..., href=True)` presence test). -/
def hasAttr (key : String) : HNode → Bool
  | .elem _ attrs _ => attrs.any (fun kv => kv.1 == key)
  | .text _ => false


/-- Value of the attribute `key` (the Python subscript `a['href']`; the
callers only use it after checking presence). -/
def attrVal (key : String) : HNode → String
  | .elem _ attrs _ =>
    match attrs.find? (fun kv => kv.1 == key) with
    | some kv => kv.2
    | none => ""
  | .text _ => ""


mutual

/-- BeautifulSoup's `get_text(strip=True)`: each text fragment of the
subtree is stripped and the results are concatenated in document order. -/
def getTextStrip : HNode → String
  | .text s => pyStrip s
  | .elem _ _ cs => getTextStripList cs

/-- Concatenation of `getTextStrip` over a list of nodes. -/
def getTextStripList : List HNode → String
  | [] => ""
  | c :: cs => getTextStrip c ++ getTextStripList cs

end


mutual

/-- Child-index paths of all element descendants of a node, in document
(preorder) order; the node itself is not listed, matching BeautifulSoup's
`find_all`, which searches descendants only. -/
def elemPaths : HNode → List (List Nat)
  | .text _ => []
  | .elem _ _ cs => elemPathsList 0 cs

/-- Paths of element descendants within a suffix of a child list whose
first element has index `i`. -/
def elemPathsList : Nat → List HNode → List (List Nat)
  | _, [] => []
  | i, c :: cs =>
    (match c with
      | .elem _ _ _ => [[i]]
      | .text _ => []) ++ (elemPaths c).map (fun p => i :: p) ++ elemPathsList (i + 1) cs

end


/-- Node reached from `n` by following a child-index path. -/
def nodeAt? : HNode → List Nat → Option HNode
  | n, [] => some n
  | n, i :: p =>
    match (childrenOf n)[i]? with
    | some c => nodeAt? c p
    | none => none


/-- Descendant elements of `n` satisfying `p`, in document order. -/
def descElems (p : HNode → Bool) (n : HNode) : List HNode :=
  ((elemPaths n).filterMap (fun q => nodeAt? n q)).filter p


/-- An `<a>` element that has an `href` attribute. -/
def isAnchorHref (n : HNode) : Bool := isElemOf ["a"] n && hasAttr "href" n


/-- BeautifulSoup `find_all('a', href=True)` under `n`. -/
def anchorsIn (n : HNode) : List HNode := descElems isAnchorHref n


/-- Whether the node at path `p` is an `h2`/`h3`/`h4` whose text contains
"documents" (the heading test of step 1 of `extract_documents_links`). -/
def docsHeadingPred (soup : HNode) (p : List Nat) : Bool :=
  match nodeAt? soup p with
  | some n => isElemOf ["h2", "h3", "h4"] n && strContains (pyLower (getTextStrip n)) "documents"
  | none => false


/-- Step 1 of `extract_documents_links` in `scraperv1.py`: the first
`h2`/`h3`/`h4` (document order) whose text contains "documents", as a path
into the soup. -/
def docsHeadingPath? (soup : HNode) : Option (List Nat) :=
  (elemPaths soup).find? (docsHeadingPred soup)


/-- Step 2 of `extract_documents_links` in `scraperv1.py`: walk up to ten
ancestors of the heading, stopping at the document root or a `body` tag,
and keep the ancestor with the strictly greatest count of `<a href>`
descendants.  `fuel` counts the remaining loop iterations and `k` how many
levels have been climbed. -/
def containerScanAux (soup : HNode) (hp : List Nat) :
    Nat → Nat → Nat → Option (List Nat) → Option (List Nat)
  | 0, _, _, best => best
  | fuel + 1, k, bestCnt, best =>
    if hp.length < k + 1 then best
    else
      let cp := hp.take (hp.length - (k + 1))
      match nodeAt? soup cp with
      | none => best
      | some c =>
        if c.tag? == some "body" then best
        else
          let cnt := (anchorsIn c).length
          if bestCnt < cnt then containerScanAux soup hp fuel (k + 1) cnt (some cp)
          else containerScanAux soup hp fuel (k + 1) bestCnt best


/-- The container chosen for the Documents region (step 2). -/
def containerPath? (soup : HNode) (hp : List Nat) : Option (List Nat) :=
  containerScanAux soup hp 10 0 0 none


/-- An `h3` or `h4` element. -/
def isHeading34 (n : HNode) : Bool := isElemOf ["h3", "h4"] n


/-- The heading-to-category keyword table of `extract_documents_links`
(`scraperv1.py`); `none` means the concalls section, skipped there. -/
def sectionCategory (title : String) : Option String :=
  if strContains title "concall" then none
  else if strContains title "announce" then some "announcements"
  else if strContains title "annual" then some "annual"
  else if strContains title "credit" then some "credit_ratings"
  else some "other"


/-- Siblings following the sub-heading at path `hq`, up to (excluding) the
next `h3`/`h4` sibling — the nodes gathered into the wrapper `div`. -/
def sectionNodesAt (soup : HNode) (hq : List Nat) : List HNode :=
  match hq.getLast?, nodeAt? soup hq.dropLast with
  | some i, some parent => ((childrenOf parent).drop (i + 1)).takeWhile (fun n => !(isHeading34 n))
  | _, _ => []


/-- Paths of the `h3`/`h4` sub-headings of the chosen Documents container,
in document order (empty when no heading or container was found). -/
def subHeadingPaths (soup : HNode) : List (List Nat) :=
  match docsHeadingPath? soup with
  | none => []
  | some hp =>
    match containerPath? soup hp with
    | none => []
    | some cp =>
      match nodeAt? soup cp with
      | none => []
      | some c =>
        (elemPaths c).filterMap (fun q =>
          match nodeAt? c q with
          | some n => if isHeading34 n then some (cp ++ q) else none
          | none => none)


/-- Step 3 of `extract_documents_links` in `scraperv1.py`: classified
document sections.  A sub-heading whose title contains "concall" is
skipped, the others are mapped through the keyword table, and a section is
kept only when its collected sibling nodes are nonempty. -/
def sectionsOf (soup : HNode) : List (String × List HNode) :=
  (subHeadingPaths soup).filterMap (fun hq =>
    match nodeAt? soup hq with
    | some hnode =>
      match sectionCategory (pyLower (getTextStrip hnode)) with
      | none => none
      | some cat =>
        let nodes := sectionNodesAt soup hq
        if nodes.isEmpty then none else some (cat, nodes)
    | none => none)


/-- Link texts treated as navigation and skipped by step 4. -/
def navTexts : List String := ["all", "show more", "show all", "add missing"]


/-- A classified document link as produced by `extract_documents_links`:
category, visible text, raw `href`, and the resolved URL. -/
structure DocLink where
  category : String
  text : String
  href : String
  url : String
deriving DecidableEq


/-- Anchors found by `find_all('a', href=True)` on the wrapper `div`: the
collected sibling nodes themselves when they are anchors, plus their
anchor descendants, in document order. -/
def selfAndDescAnchors (n : HNode) : List HNode :=
  (if isAnchorHref n then [n] else []) ++ anchorsIn n


/-- All anchors of a section's collected nodes. -/
def sectionAnchors (nodes : List HNode) : List HNode :=
  nodes.flatMap selfAndDescAnchors


/-- Step 4 of `extract_documents_links` in `scraperv1.py` for one section:
every anchor is emitted unless its stripped text is empty or its lowercased
text is one of the navigation texts.  `uj` stands for the external
`urllib.parse.urljoin`. -/
def sectionLinks (uj : String → String → String) (base cat : String)
    (nodes : List HNode) : List DocLink :=
  (sectionAnchors nodes).filterMap (fun a =>
    let t := getTextStrip a
    if t = "" ∨ pyLower t ∈ navTexts then none
    else some ⟨cat, t, attrVal "href" a, uj base (attrVal "href" a)⟩)


/-- Embedding of `extract_documents_links` from `scraperv1.py`: classify
the Documents region and emit the admissible links of every section. -/
def extract_documents_links (uj : String → String → String) (soup : HNode)
    (base : String) : List DocLink :=
  (sectionsOf soup).flatMap (fun s => sectionLinks uj base s.1 s.2)


/-- For each classified section, the category together with the stripped
text of each of its anchors (used to state which hyperlinks sit inside
classified sections, independently of the emission filter). -/
def sectionAnchorTexts (soup : HNode) : List (String × String) :=
  (sectionsOf soup).flatMap (fun s => (sectionAnchors s.2).map (fun a => (s.1, getTextStrip a)))


/-- The category-to-folder dictionary built by `scrape_screener_company` in
`scraperv1.py` (keys and directory names, in source order). -/
def foldersV1 : List (String × String) :=
  [("tables", "financial_tables"), ("annual", "annual_reports"), ("concalls", "concalls"),
   ("announcements", "announcements"), ("credit_ratings", "credit_ratings"),
   ("quarterly_results", "quarterly_result_pdfs"), ("other", "other_documents")]


/-- The known folder keys of `scraperv1.py`. -/
def folderKeysV1 : List String := foldersV1.map Prod.fst


/-- Folder-key resolution of `scraperv1.py`: `folder_key = category; if
folder_key not in folders: folder_key = 'other'`. -/
def folderKeyV1 (category : String) : String :=
  if category ∈ folderKeysV1 then category else "other"


/-- Destination directory in `scraperv1.py`:
`folders.get(folder_key, folders['other'])`. -/
def destFolderV1 (category : String) : String :=
  match foldersV1.lookup (folderKeyV1 category) with
  | some f => f
  | none => "other_documents"


/-- The category-to-folder dictionary of `scraper.py` (no
`quarterly_results` entry there). -/
def foldersV2 : List (String × String) :=
  [("tables", "financial_tables"), ("annual", "annual_reports"), ("concalls", "concalls"),
   ("announcements", "announcements"), ("credit_ratings", "credit_ratings"),
   ("other", "other_documents")]


/-- The known folder keys of `scraper.py`. -/
def folderKeysV2 : List String := foldersV2.map Prod.fst


/-- Folder-key resolution of `scraper.py`: `folder_key = category; if
folder_key not in folders: folder_key = 'announcements'  # fallback`. -/
def folderKeyV2 (category : String) : String :=
  if category ∈ folderKeysV2 then category else "announcements"


/-- Destination directory in `scraper.py`:
`folders.get(folder_key, folders['announcements'])`. -/
def destFolderV2 (category : String) : String :=
  match foldersV2.lookup (folderKeyV2 category) with
  | some f => f
  | none => "announcements"


/-- Modelled behavior of `urllib.parse.urlparse(url).path` (Python standard
library, an external collaborator) for the ordinary absolute URLs handled
here: the fragment and query are cut off, and for a URL with a
`scheme://host` part the path starts at the first slash after the host. -/
def dropAfterSeq (pat : List Char) : List Char → Option (List Char)
  | [] => if pat.isEmpty then some [] else none
  | c :: cs =>
    if listStartsWith (c :: cs) pat then some ((c :: cs).drop pat.length)
    else dropAfterSeq pat cs


/-- Cuts a character list at the first occurrence of `stop`. -/
def cutAt (stop : Char) (cs : List Char) : List Char := cs.takeWhile (fun c => c ≠ stop)


/-- Modelled behavior of `urllib.parse.urlparse(url).path` (Python standard
library, an external collaborator) for the ordinary absolute URLs handled
here: the fragment and query are cut off, and for a URL with a
`scheme://host` part the path starts at the first slash after the host. -/
def urlPathOf (url : String) : String :=
  let noQuery := cutAt '?' (cutAt '#' url.toList)
  match dropAfterSeq "://".toList noQuery with
  | some hostPath => (hostPath.dropWhile (fun c => c ≠ '/')).asString
  | none => noQuery.asString


/-- Modelled behavior of `os.path.splitext(path)[1]` (Python standard
library, an external collaborator): the extension of the last path
component, from its last dot; leading dots of the component do not start an
extension. -/
def splitextExt (path : String) : String :=
  let base := (path.toList.reverse.takeWhile (fun c => c ≠ '/')).reverse
  let stripped := base.dropWhile (fun c => c = '.')
  let rev := stripped.reverse
  let after := rev.takeWhile (fun c => c ≠ '.')
  if after.length = rev.length then "" else ('.' :: after.reverse).asString


/-- `os.path.splitext(urlparse(full_url).path)[1].lower()` as computed at
the download step of `scrape_screener_company` in `scraperv1.py`. -/
def parsedExtOf (url : String) : String := pyLower (splitextExt (urlPathOf url))


/-- Embedding of the extension decision of `scrape_screener_company`
(`scraperv1.py`, the block starting "Decide extension more
intelligently"). -/
def chooseExt (force_pdf : Bool) (full_url : String) : String :=
  let parsed_ext := parsedExtOf full_url
  if force_pdf then ".pdf"
  else
    if parsed_ext ∈ [".pdf"] then ".pdf"
    else if parsed_ext ∈ [".htm", ".html"] then ".html"
    else if parsed_ext ∈ [".aspx", ".php", ""] then
      if strContains (pyLower full_url) ".pdf" then ".pdf" else ".html"
    else parsed_ext


/-- Error-page phrases checked on small downloads by `download_file` in
both scrapers. -/
def errorPhrases : List String := ["error", "not found", "404", "access denied"]


/-- Whether the artifact's text (read lowercased) matches an error-page
phrase. -/
def errorPhraseIn (content : String) : Bool :=
  errorPhrases.any (fun w => strContains (pyLower content) w)


/-- Outcome of the pre-flight HEAD request of `download_file`
(`scraperv1.py`): a reported content type, or an exception. -/
inductive HeadProbe where
  | ok (contentType : String)
  | exn
deriving DecidableEq


/-- Observable outcome of one `download_file` call in `scraperv1.py`:
the returned flag, whether the GET request was issued at all, and the
suffix of the file kept by the raw download path (`none` when that path
keeps no file; the delegated per-site scrapers write their own bundles). -/
structure DlOutcome where
  returned : Bool
  getPerformed : Bool
  savedExt : Option String
deriving DecidableEq


/-- Embedding of the extension-adjustment block of `download_file`
(`scraperv1.py`).  The name `is_pdf` is bound only inside the `try` of the
HEAD probe, so when the probe raised, reading it raises `NameError`; that
is modelled by `is_pdf?` being `none`, and the result `none` means the
block aborts to the function's outer `except` handler. -/
def downloadAdjustV1 (save_ext : String) (probe : HeadProbe) : Option String :=
  let is_pdf? : Option Bool :=
    match probe with
    | .ok ct => some (strContains (pyLower ct) "application/pdf")
    | .exn => none
  let content_type : String :=
    match probe with
    | .ok ct => pyLower ct
    | .exn => ""
  if pyLower save_ext ∉ [".pdf", ".html", ".htm"] then
    match is_pdf? with
    | none => none
    | some ispdf =>
      if ispdf then some ".pdf"
      else if strContains content_type "text/html" = true
          ∨ pyLower save_ext ∈ [".aspx", ".php", ""] then some ".html"
      else some save_ext
  else if pyLower save_ext ∈ [".aspx", ".php"] then
    match is_pdf? with
    | none => none
    | some ispdf => some (if ispdf then ".pdf" else ".html")
  else some save_ext


/-- Guard of the India Ratings special case in `download_file`
(`scraperv1.py`): `'indiaratings.co.in' in url and 'pressrelease' in
url.lower()`. -/
def indiaDelegates (url : String) : Bool :=
  strContains url "indiaratings.co.in" && strContains (pyLower url) "pressrelease"


/-- Guard of the CRISIL special case in `download_file` (`scraperv1.py`):
`'crisil.com' in url and url.lower().endswith('.html')`. -/
def crisilDelegates (url : String) : Bool :=
  strContains url "crisil.com" && strEndsWith (pyLower url) ".html"


/-- Embedding of `download_file` from `scraperv1.py`.  The external
effects are parameters: `indiaOk`/`crisilOk` say whether the delegated
per-site scrapers succeed, `probe` is the HEAD result, `getOk` whether the
GET request succeeds with a 2xx status, `size` and `content` describe the
bytes written, and `readOk` whether they can be re-read as text. -/
def download_file_v1 (indiaOk crisilOk : Bool) (url save_ext : String)
    (probe : HeadProbe) (getOk : Bool) (size : Nat) (content : String)
    (readOk : Bool) : DlOutcome :=
  if indiaDelegates url && indiaOk then ⟨true, false, none⟩
  else if crisilDelegates url && crisilOk then ⟨true, false, none⟩
  else
    match downloadAdjustV1 save_ext probe with
    | none => ⟨false, false, none⟩
    | some ext =>
      if !getOk then ⟨false, true, none⟩
      else if size < 500 then
        if readOk then
          if errorPhraseIn content then ⟨false, true, none⟩
          else ⟨true, true, some ext⟩
        else ⟨true, true, some ext⟩
      else ⟨true, true, some ext⟩


/-- Embedding of `download_file` from `scraper.py` (no HEAD probe there;
the threshold is 1000 bytes).  Returns (returned flag, file kept). -/
def download_file_v2 (getOk : Bool) (size : Nat) (content : String) : Bool × Bool :=
  if !getOk then (false, false)
  else if size < 1000 then
    if errorPhraseIn content then (false, false) else (true, true)
  else (true, true)


/-- One HTML table as consumed by the table loop of
`scrape_screener_company` (identical logic in both scrapers): the section
heading found by `extract_section_heading` (upstream DOM traversal),
whether `pd.read_html` (external) parsed it, the parsed shape, and the
first column rendered to strings. -/
structure RawTable where
  sectionHeading : Option String
  parseOk : Bool
  rows : Nat
  cols : Nat
  firstCol : List String
deriving DecidableEq


/-- The keyword fallback naming of the table loop, applied to
`' '.join(df.iloc[:, 0].astype(str).tolist()[:5]).lower()`
(`scraperv1.py` version, which also knows `Shareholding_Pattern`). -/
def baseNameFromCells (idx : Nat) (cells : List String) : String :=
  let firstColText := pyLower (pyJoin " " (cells.take 5))
  if ["sales", "revenue", "operating profit", "expenses"].any
      (fun k => strContains firstColText k) then "Profit_Loss"
  else if ["equity", "reserves", "assets", "liabilities", "borrowings"].any
      (fun k => strContains firstColText k) then "Balance_Sheet"
  else if ["cash from operating", "cash from investing", "cash from financing"].any
      (fun k => strContains firstColText k) then "Cash_Flows"
  else if ["debtor days", "roce", "roe", "working capital"].any
      (fun k => strContains firstColText k) then "Ratios"
  else if strContains firstColText "sep" || strContains firstColText "dec"
      || strContains firstColText "jun" then "Quarterly_Results"
  else if strContains firstColText "promoter" || strContains firstColText "fii"
      || strContains firstColText "dii" then "Shareholding_Pattern"
  else "Table_" ++ natDecimal idx


/-- Base name of a table: the cleaned section heading when one was found
and truthy, else the keyword fallback. -/
def baseNameOf (idx : Nat) (t : RawTable) : String :=
  match t.sectionHeading with
  | some s => if s ≠ "" then clean_filename s else baseNameFromCells idx t.firstCol
  | none => baseNameFromCells idx t.firstCol


/-- State of the table loop: the `tables_saved` dictionary (as an
insertion-ordered association list of name to shape) and the CSV files
written. -/
structure TablesState where
  entries : List (String × Nat × Nat)
  csvFiles : List String
deriving DecidableEq


/-- One iteration of the table loop: skip on parse failure (the `except`
branch), skip shapes smaller than 2 by 2, otherwise save under a fresh
name. -/
def tableStep (st : TablesState) (idx : Nat) (t : RawTable) : TablesState :=
  if !t.parseOk then st
  else if t.rows < 2 ∨ t.cols < 2 then st
  else
    let base := baseNameOf idx t
    let name := freshName (st.entries.map Prod.fst) base
    ⟨st.entries ++ [(name, t.rows, t.cols)], st.csvFiles ++ [name ++ ".csv"]⟩


/-- The table loop from a given state and positional index. -/
def processTablesFrom (st : TablesState) (idx : Nat) : List RawTable → TablesState
  | [] => st
  | t :: ts => processTablesFrom (tableStep st idx t) (idx + 1) ts


/-- The whole table-extraction pass (`for idx, table in
enumerate(all_tables)`). -/
def processTables (ts : List RawTable) : TablesState := processTablesFrom ⟨[], []⟩ 0 ts


/-- One "Notes" trigger of the concall modal loop
(`extract_concall_notes`, `scraperv1.py`), with the browser's behavior for
it: its `data-title` attribute (`none` when absent), the first line of its
ancestor row's text (`none` when locating the row raises), whether the
right-side dialog becomes visible within the bounded wait, and the
stripped text of the dialog body. -/
structure ConcallTrigger where
  dataTitle : Option String
  rowText : Option String
  dialogAppears : Bool
  modalText : String
deriving DecidableEq


/-- Title resolution for trigger number `idx` (0-based): `data-title` when
truthy, else the row's first line, else `Concall_<idx+1>`. -/
def triggerTitle (idx : Nat) (t : ConcallTrigger) : String :=
  let fallback : String :=
    match t.rowText with
    | some r => if r ≠ "" then r else "Concall_" ++ natDecimal (idx + 1)
    | none => "Concall_" ++ natDecimal (idx + 1)
  match t.dataTitle with
  | some s => if s ≠ "" then s else fallback
  | none => fallback


/-- One iteration of the modal-notes loop: on dialog timeout the entry is
skipped (`continue`); an empty dialog text is not saved; otherwise the
notes are persisted under the cleaned title. -/
def notesStep (saved : List (String × String)) (idx : Nat) (t : ConcallTrigger) :
    List (String × String) :=
  if !t.dialogAppears then saved
  else if t.modalText = "" then saved
  else saved ++ [(clean_filename (triggerTitle idx t ++ "_concall_notes") ++ ".md", t.modalText)]


/-- The modal-notes loop from a given accumulator and trigger index. -/
def extract_concall_notes_from (saved : List (String × String)) (idx : Nat) :
    List ConcallTrigger → List (String × String)
  | [] => saved
  | t :: ts => extract_concall_notes_from (notesStep saved idx t) (idx + 1) ts


/-- Embedding of `extract_concall_notes` (`scraperv1.py`): the list of
(filename, body) Markdown notes persisted over a run across the given
triggers, in order. -/
def extract_concall_notes (triggers : List ConcallTrigger) : List (String × String) :=
  extract_concall_notes_from [] 0 triggers


/-- A concrete stand-in for the external `urljoin` used when running the
classifier on concrete inputs (it returns the raw `href`). -/
def ujHref : String → String → String := fun _ href => href


/-- An anchor element with an `href` attribute and a text child. -/
def aLink (href textStr : String) : HNode := .elem "a" [("href", href)] [.text textStr]


/-- Concrete classifier input: a Documents region with headings
"Announcements" (three ordinary links) and "Annual reports" (three links of
which one is a "Show More" link). -/
def scenarioSoup : HNode :=
  .elem "[document]" [] [
    .elem "div" [] [
      .elem "h2" [] [.text "Documents"],
      .elem "h3" [] [.text "Announcements"],
      aLink "/a1" "Board Meeting",
      aLink "/a2" "Result Update",
      aLink "/a3" "Investor Presentation",
      .elem "h3" [] [.text "Annual reports"],
      aLink "/r1" "Financial Year 2024",
      aLink "/r2" "Financial Year 2023",
      aLink "/r3" "Show More"
    ]
  ]


/-- Concrete classifier input in which both sections contain three links
including one "Show More" link each. -/
def scenarioSoupBothNav : HNode :=
  .elem "[document]" [] [
    .elem "div" [] [
      .elem "h2" [] [.text "Documents"],
      .elem "h3" [] [.text "Announcements"],
      aLink "/a1" "Board Meeting",
      aLink "/a2" "Result Update",
      aLink "/a3" "Show More",
      .elem "h3" [] [.text "Annual reports"],
      aLink "/r1" "Financial Year 2024",
      aLink "/r2" "Financial Year 2023",
      aLink "/r3" "Show More"
    ]
  ]


/-- Concrete classifier input whose single classified section contains one
hyperlink with empty visible text. -/
def emptyTextSoup : HNode :=
  .elem "[document]" [] [
    .elem "div" [] [
      .elem "h2" [] [.text "Documents"],
      .elem "h3" [] [.text "Annual reports"],
      aLink "/r1" ""
    ]
  ]


/-- Concrete page without any heading containing "documents". -/
def noDocsSoup : HNode := .elem "[document]" [] [.elem "p" [] [.text "hello financials"]]


/-- Concrete page with a Documents heading but no `h3`/`h4` sub-heading in
the chosen container. -/
def noSubheadingSoup : HNode :=
  .elem "[document]" [] [
    .elem "div" [] [
      .elem "h2" [] [.text "Documents"],
      aLink "/d1" "Annual Report 2024"
    ]
  ]


/-- Concrete modal-notes trigger whose dialog opens with text. -/
def triggerQ1 : ConcallTrigger := ⟨some "Q1 FY25", none, true, "Revenue grew this quarter."⟩


/-- Concrete modal-notes trigger whose dialog wait times out. -/
def triggerQ2Timeout : ConcallTrigger := ⟨some "Q2 FY25", none, false, "Unseen notes."⟩


/-- Concrete modal-notes trigger whose dialog opens with text. -/
def triggerQ3 : ConcallTrigger := ⟨some "Q3 FY25", none, true, "Margins improved."⟩


/-- Concrete URL whose path has no extension but which contains "pdf"
(without a dot) in its query string. -/
def pdfQueryUrl : String := "https://example.com/download?format=pdf"


theorem natUndigits_natDigitsAux :
    ∀ fuel n, n ≤ fuel → natUndigits (natDigitsAux fuel n) = n := by
  intro fuel
  induction fuel with
  | zero =>
    intro n hn
    interval_cases n
    rfl
  | succ f ih =>
    intro n hn
    cases n with
    | zero => rfl
    | succ m =>
      have hdiv : (m + 1) / 10 ≤ f := by
        have h1 : (m + 1) / 10 < m + 1 := Nat.div_lt_self (Nat.succ_pos m) (by omega)
        omega
      simp only [natDigitsAux, natUndigits, ih _ hdiv]
      omega


theorem natUndigits_natDigits (n : Nat) : natUndigits (natDigits n) = n :=
  natUndigits_natDigitsAux n n (Nat.le_refl n)


theorem natDigits_lt_ten : ∀ fuel n, ∀ d ∈ natDigitsAux fuel n, d < 10 := by
  intro fuel
  induction fuel with
  | zero =>
    intro n d hd
    cases n <;> simp [natDigitsAux] at hd
  | succ f ih =>
    intro n d hd
    cases n with
    | zero => simp [natDigitsAux] at hd
    | succ m =>
      simp only [natDigitsAux, List.mem_cons] at hd
      rcases hd with h | h
      · omega
      · exact ih _ _ h


theorem digitChar_inj_lt :
    ∀ a, a < 10 → ∀ b, b < 10 → Nat.digitChar a = Nat.digitChar b → a = b := by
  decide


theorem map_digitChar_inj :
    ∀ l₁ l₂ : List Nat, (∀ d ∈ l₁, d < 10) → (∀ d ∈ l₂, d < 10) →
      l₁.map Nat.digitChar = l₂.map Nat.digitChar → l₁ = l₂ := by
  intro l₁
  induction l₁ with
  | nil =>
    intro l₂ _ _ h
    cases l₂ with
    | nil => rfl
    | cons b bs => simp at h
  | cons a as ih =>
    intro l₂ h₁ h₂ h
    cases l₂ with
    | nil => simp at h
    | cons b bs =>
      simp only [List.map_cons, List.cons.injEq] at h
      have ha : a < 10 := h₁ a (List.mem_cons_self _ _)
      have hb : b < 10 := h₂ b (List.mem_cons_self _ _)
      have hab : a = b := digitChar_inj_lt a ha b hb h.1
      have htl : as = bs :=
        ih bs (fun d hd => h₁ d (List.mem_cons_of_mem _ hd))
          (fun d hd => h₂ d (List.mem_cons_of_mem _ hd)) h.2
      rw [hab, htl]


theorem natDecimal_ne_zero_str : ∀ n : Nat, n ≠ 0 → natDecimal n ≠ "0" := by
  intro n hn h
  simp only [natDecimal, if_neg hn] at h
  have h2 : (natDigits n).reverse.map Nat.digitChar = ['0'] := by
    have := List.asString_eq.mp h
    simpa using this
  have hlen : (natDigits n).reverse.length = 1 := by
    have := congrArg List.length h2
    simpa using this
  obtain ⟨d, hd⟩ := List.length_eq_one.mp hlen
  rw [hd] at h2
  simp only [List.map_cons, List.map_nil, List.cons.injEq] at h2
  have hdmem : d ∈ natDigits n := List.mem_reverse.mp (hd ▸ List.mem_cons_self d [])
  have hdlt : d < 10 := natDigits_lt_ten n n d hdmem
  have hd0 : d = 0 := digitChar_inj_lt d hdlt 0 (by omega) (by simpa using h2.1)
  have hnd : natDigits n = [0] := by
    have h3 := congrArg List.reverse hd
    simpa [hd0] using h3
  have h4 := natUndigits_natDigits n
  rw [hnd] at h4
  simp [natUndigits] at h4
  exact hn h4.symm


theorem natDecimal_inj : ∀ m n : Nat, natDecimal m = natDecimal n → m = n := by
  have key : ∀ m n : Nat, m ≠ 0 → n ≠ 0 → natDecimal m = natDecimal n → m = n := by
    intro m n hm hn h
    simp only [natDecimal, if_neg hm, if_neg hn] at h
    have h1 := List.asString_inj.mp h
    have h2 : (natDigits m).reverse = (natDigits n).reverse :=
      map_digitChar_inj _ _
        (fun d hd => natDigits_lt_ten m m d (List.mem_reverse.mp hd))
        (fun d hd => natDigits_lt_ten n n d (List.mem_reverse.mp hd)) h1
    have h3 : natDigits m = natDigits n := List.reverse_injective h2
    calc m = natUndigits (natDigits m) := (natUndigits_natDigits m).symm
      _ = natUndigits (natDigits n) := by rw [h3]
      _ = n := natUndigits_natDigits n
  intro m n h
  by_cases hm : m = 0 <;> by_cases hn : n = 0
  · omega
  · exfalso
    subst hm
    have h0 : natDecimal 0 = "0" := by simp [natDecimal]
    exact natDecimal_ne_zero_str n hn (h0 ▸ h).symm
  · exfalso
    subst hn
    have h0 : natDecimal 0 = "0" := by simp [natDecimal]
    exact natDecimal_ne_zero_str m hm (h.trans h0)
  · exact key m n hm hn h


theorem ne_append_underscore (base s : String) : base ≠ base ++ "_" ++ s := by
  intro h
  have hlen := congrArg String.length h
  rw [String.length_append (base ++ "_") s, String.length_append base "_"] at hlen
  have : ("_" : String).length = 1 := by decide
  omega


theorem append_natDecimal_inj (base : String) :
    Function.Injective (fun i : Nat => base ++ "_" ++ natDecimal (i + 1)) := by
  intro i j h
  simp only at h
  have h1 : (base ++ "_").data ++ (natDecimal (i + 1)).data
      = (base ++ "_").data ++ (natDecimal (j + 1)).data := by
    have h0 := congrArg String.data h
    rw [String.data_append (base ++ "_") (natDecimal (i + 1)),
      String.data_append (base ++ "_") (natDecimal (j + 1))] at h0
    exact h0
  have h2 := List.append_cancel_left h1
  have h3 : natDecimal (i + 1) = natDecimal (j + 1) := String.toList_inj.mp h2
  have := natDecimal_inj _ _ h3
  omega


theorem candNames_nodup (base : String) (n : Nat) : (candNames base n).Nodup := by
  rw [candNames, List.nodup_cons]
  constructor
  · intro hmem
    obtain ⟨i, _, hi⟩ := List.mem_map.mp hmem
    exact ne_append_underscore base (natDecimal (i + 1)) hi.symm
  · exact (List.nodup_range (n + 1)).map (append_natDecimal_inj base)


theorem freshName_not_mem (names : List String) (base : String) :
    freshName names base ∉ names := by
  unfold freshName
  cases h : (candNames base names.length).find? (fun nm => !(decide (nm ∈ names))) with
  | some nm =>
    have := List.find?_some h
    simpa using this
  | none =>
    exfalso
    have hall := List.find?_eq_none.mp h
    have hsub : ∀ x ∈ candNames base names.length, x ∈ names := by
      intro x hx
      have := hall x hx
      simpa using this
    have hnd := candNames_nodup base names.length
    have hcard : (candNames base names.length).toFinset.card
        = (candNames base names.length).length := List.toFinset_card_of_nodup hnd
    have hsubF : (candNames base names.length).toFinset ⊆ names.toFinset := by
      intro x hx
      exact List.mem_toFinset.mpr (hsub x (List.mem_toFinset.mp hx))
    have h1 : (candNames base names.length).toFinset.card ≤ names.toFinset.card :=
      Finset.card_le_card hsubF
    have h2 : names.toFinset.card ≤ names.length := List.toFinset_card_le names
    have hlen : (candNames base names.length).length = names.length + 2 := by
      simp [candNames]
    omega


/-- C1 counterexample: for the category `quarterly_results` — not a key of
`scraper.py`'s category-to-folder map — that file's materializer loop falls
back to the `announcements` folder key, not to "other". -/
theorem c1_counterexample :
    "quarterly_results" ∉ folderKeysV2
  ∧ folderKeyV2 "quarterly_results" = "announcements"
  ∧ folderKeyV2 "quarterly_results" ≠ "other"
  ∧ destFolderV2 "quarterly_results" = "announcements" := by
  decide


/-- C1 (amended): in both scrapers every category resolves to a known
folder key and hence a known destination folder; a category that is not a
known key falls back to "other" in `scraperv1.py` but to "announcements"
in `scraper.py`. -/
theorem c1_folder_fallback (category : String) :
    folderKeyV1 category ∈ folderKeysV1
  ∧ (category ∉ folderKeysV1 → folderKeyV1 category = "other")
  ∧ destFolderV1 category ∈ foldersV1.map Prod.snd
  ∧ folderKeyV2 category ∈ folderKeysV2
  ∧ (category ∉ folderKeysV2 → folderKeyV2 category = "announcements")
  ∧ destFolderV2 category ∈ foldersV2.map Prod.snd := by
  by_cases h1 : category ∈ folderKeysV1
  · have hm := h1
    simp only [folderKeysV1, foldersV1, List.map_cons, List.map_nil, List.mem_cons,
      List.not_mem_nil, or_false] at hm
    rcases hm with rfl | rfl | rfl | rfl | rfl | rfl | rfl <;> decide
  · have h2 : category ∉ folderKeysV2 := by
      intro hc
      have hm := hc
      simp only [folderKeysV2, foldersV2, List.map_cons, List.map_nil, List.mem_cons,
        List.not_mem_nil, or_false] at hm
      rcases hm with rfl | rfl | rfl | rfl | rfl | rfl <;> exact absurd (by decide) h1
    have e1 : folderKeyV1 category = "other" := by
      unfold folderKeyV1
      rw [if_neg h1]
    have e2 : folderKeyV2 category = "announcements" := by
      unfold folderKeyV2
      rw [if_neg h2]
    refine ⟨?_, fun _ => e1, ?_, ?_, fun _ => e2, ?_⟩
    · rw [e1]; decide
    · unfold destFolderV1; rw [e1]; decide
    · rw [e2]; decide
    · unfold destFolderV2; rw [e2]; decide


/-- C1 witness: a concrete unknown category resolves to "other" in
`scraperv1.py` and a concrete unknown category resolves to
"announcements" in `scraper.py`. -/
theorem c1_folder_fallback_witness :
    folderKeyV1 "ratings_legacy" = "other"
  ∧ folderKeyV2 "quarterly_results" = "announcements" :=
  ⟨(c1_folder_fallback "ratings_legacy").2.1 (by decide),
   (c1_folder_fallback "quarterly_results").2.2.2.2.1 (by decide)⟩


/-- C2 counterexample: a URL with no path extension that contains "pdf"
(but not ".pdf") gets extension ".html", while the claim's guess rule —
".pdf" exactly when "pdf" appears anywhere in the URL — demands ".pdf". -/
theorem c2_counterexample :
    parsedExtOf pdfQueryUrl = ""
  ∧ strContains (pyLower pdfQueryUrl) "pdf" = true
  ∧ chooseExt false pdfQueryUrl = ".html"
  ∧ chooseExt false pdfQueryUrl ≠ ".pdf" := by
  refine ⟨by decide, by decide, by decide, by decide⟩


/-- C2 (amended): for a link not flagged `force_pdf`, a URL path extension
of ".pdf" maps to ".pdf", ".htm"/".html" map to ".html", an absent or
dynamic-page extension (".aspx", ".php") resolves to ".pdf" exactly when
the substring ".pdf" (with the dot) appears in the lowercased URL and to
".html" otherwise, and any other extension is kept as-is. -/
theorem c2_extension_guess (url : String) :
    (parsedExtOf url = ".pdf" → chooseExt false url = ".pdf")
  ∧ ((parsedExtOf url = ".htm" ∨ parsedExtOf url = ".html") → chooseExt false url = ".html")
  ∧ ((parsedExtOf url = ".aspx" ∨ parsedExtOf url = ".php" ∨ parsedExtOf url = "") →
      chooseExt false url = if strContains (pyLower url) ".pdf" = true then ".pdf" else ".html")
  ∧ (parsedExtOf url ∉ ([".pdf", ".htm", ".html", ".aspx", ".php", ""] : List String) →
      chooseExt false url = parsedExtOf url) := by
  refine ⟨?_, ?_, ?_, ?_⟩
  · intro h
    simp [chooseExt, h]
  · rintro (h | h) <;> simp [chooseExt, h]
  · rintro (h | h | h) <;> simp [chooseExt, h]
  · intro h
    simp only [List.mem_cons, List.not_mem_nil, or_false, not_or] at h
    obtain ⟨h1, h2, h3, h4, h5, h6⟩ := h
    simp [chooseExt, h1, h2, h3, h4, h5, h6]


/-- C2 witness: each branch of the amended extension rule exercised at a
concrete URL. -/
theorem c2_extension_guess_witness :
    chooseExt false "https://x.com/a.pdf" = ".pdf"
  ∧ chooseExt false "https://x.com/a.htm" = ".html"
  ∧ chooseExt false "https://x.com/gen.aspx" = ".html"
  ∧ chooseExt false "https://x.com/files.zip" = ".zip" := by
  refine ⟨(c2_extension_guess _).1 (by decide),
    (c2_extension_guess _).2.1 (Or.inl (by decide)), ?_, ?_⟩
  · have h := (c2_extension_guess "https://x.com/gen.aspx").2.2.1 (Or.inl (by decide))
    rw [h]
    decide
  · have h := (c2_extension_guess "https://x.com/files.zip").2.2.2 (by decide)
    rw [h]
    decide


/-- C3: a link flagged `force_pdf` always gets the ".pdf" extension,
whatever the URL's path extension is. -/
theorem c3_force_pdf_extension (url : String) : chooseExt true url = ".pdf" := rfl


/-- C7: in both scrapers, a downloaded artifact below the size threshold
(500 bytes in `scraperv1.py`, 1000 in `scraper.py`) whose text matches an
error-page phrase is deleted and the call returns failure. -/
theorem c7_error_page_deleted :
    (∀ (indiaOk crisilOk : Bool) (url save_ext : String) (probe : HeadProbe)
        (size : Nat) (content ext : String),
        indiaDelegates url = false → crisilDelegates url = false →
        downloadAdjustV1 save_ext probe = some ext →
        size < 500 → errorPhraseIn content = true →
        download_file_v1 indiaOk crisilOk url save_ext probe true size content true
          = ⟨false, true, none⟩)
  ∧ (∀ (size : Nat) (content : String),
        size < 1000 → errorPhraseIn content = true →
        download_file_v2 true size content = (false, false)) := by
  constructor
  · intro indiaOk crisilOk url save_ext probe size content ext hI hC hAdj hSize hErr
    simp [download_file_v1, hI, hC, hAdj, hSize, hErr]
  · intro size content hSize hErr
    simp [download_file_v2, hSize, hErr]


/-- C7 witness: a 100-byte artifact reading "404 not found" is deleted and
reported failed by both embeddings. -/
theorem c7_error_page_deleted_witness :
    download_file_v1 true true "https://example.com/x.pdf" ".pdf" (.ok "application/pdf")
        true 100 "404 not found" true = ⟨false, true, none⟩
  ∧ download_file_v2 true 100 "404 not found" = (false, false) :=
  ⟨c7_error_page_deleted.1 true true _ _ _ _ _ ".pdf" (by decide) (by decide) (by decide)
      (by omega) (by decide),
   c7_error_page_deleted.2 100 _ (by omega) (by decide)⟩


/-- C9: a dialog-visibility timeout makes the modal-notes loop skip that
entry and continue; in a run over three triggers whose second times out,
the notes of the first and third triggers are still persisted. -/
theorem c9_modal_timeout_skip :
    (∀ (saved : List (String × String)) (idx : Nat) (t : ConcallTrigger),
        t.dialogAppears = false → notesStep saved idx t = saved)
  ∧ extract_concall_notes [triggerQ1, triggerQ2Timeout, triggerQ3]
      = [("Q1_FY25_concall_notes.md", "Revenue grew this quarter."),
         ("Q3_FY25_concall_notes.md", "Margins improved.")] := by
  constructor
  · intro saved idx t h
    simp [notesStep, h]
  · decide


/-- C9 witness: the skip rule applied to the concrete timed-out trigger. -/
theorem c9_modal_timeout_skip_witness :
    notesStep [("Q1_FY25_concall_notes.md", "Revenue grew this quarter.")] 1 triggerQ2Timeout
      = [("Q1_FY25_concall_notes.md", "Revenue grew this quarter.")] :=
  c9_modal_timeout_skip.1 _ 1 triggerQ2Timeout (by decide)


/-- C10: in `scraperv1.py`'s `download_file`, when the HEAD probe raises
and the target suffix is none of ".pdf"/".html"/".htm", the later read of
`is_pdf` (bound only inside the probe's `try`) raises, the outer handler
catches it, and the function returns failure without ever issuing the
GET request. -/
theorem c10_head_probe_exn_aborts
    (indiaOk crisilOk : Bool) (url save_ext : String) (getOk : Bool)
    (size : Nat) (content : String) (readOk : Bool)
    (hIndia : indiaDelegates url = false) (hCrisil : crisilDelegates url = false)
    (hExt : pyLower save_ext ∉ ([".pdf", ".html", ".htm"] : List String)) :
    download_file_v1 indiaOk crisilOk url save_ext .exn getOk size content readOk
      = ⟨false, false, none⟩ := by
  have hadj : downloadAdjustV1 save_ext .exn = none := by
    simp only [downloadAdjustV1, if_pos hExt]
  simp [download_file_v1, hIndia, hCrisil, hadj]


/-- C10 witness: a ".aspx" target with a failing HEAD probe is reported
failed with no GET performed, even though the GET would have succeeded. -/
theorem c10_head_probe_exn_aborts_witness :
    download_file_v1 false false "https://www.example.com/page.aspx" ".aspx" .exn true 0 "" true
      = ⟨false, false, none⟩ :=
  c10_head_probe_exn_aborts false false _ _ true 0 "" true (by decide) (by decide) (by decide)


theorem tableStep_skip_small (st : TablesState) (idx : Nat) (t : RawTable)
    (h : t.rows < 2 ∨ t.cols < 2) : tableStep st idx t = st := by
  unfold tableStep
  rcases h with h | h <;> simp [h]


theorem processTablesFrom_small (ts : List RawTable) :
    ∀ (st : TablesState) (idx : Nat), (∀ t ∈ ts, t.rows < 2 ∨ t.cols < 2) →
      processTablesFrom st idx ts = st := by
  induction ts with
  | nil => intro st idx _; rfl
  | cons t ts ih =>
    intro st idx h
    rw [processTablesFrom, tableStep_skip_small st idx t (h t (List.mem_cons_self _ _))]
    exact ih _ _ (fun u hu => h u (List.mem_cons_of_mem _ hu))


/-- C4: a table whose parsed grid is smaller than 2 by 2 contributes
nothing: the loop step leaves both the saved-tables index and the set of
CSV files unchanged, and a run over only such tables produces nothing. -/
theorem c4_small_tables_skipped :
    (∀ (st : TablesState) (idx : Nat) (t : RawTable),
        t.rows < 2 ∨ t.cols < 2 → tableStep st idx t = st)
  ∧ (∀ ts : List RawTable, (∀ t ∈ ts, t.rows < 2 ∨ t.cols < 2) →
        processTables ts = ⟨[], []⟩) :=
  ⟨tableStep_skip_small, fun ts h => processTablesFrom_small ts ⟨[], []⟩ 0 h⟩


/-- C4 witness: a 1-row table and a 1-column table produce no index entry
and no CSV file. -/
theorem c4_small_tables_skipped_witness :
    tableStep ⟨[], []⟩ 0 ⟨none, true, 1, 5, ["Sales"]⟩ = ⟨[], []⟩
  ∧ processTables [⟨none, true, 1, 5, ["Sales"]⟩, ⟨some "Ratios", true, 4, 1, []⟩]
      = ⟨[], []⟩ :=
  ⟨c4_small_tables_skipped.1 _ 0 _ (by decide),
   c4_small_tables_skipped.2 _ (by decide)⟩


theorem two_le_length_of_mem_ne {α : Type} {a b : α} {l : List α}
    (ha : a ∈ l) (hb : b ∈ l) (hab : a ≠ b) : 2 ≤ l.length := by
  cases l with
  | nil => cases ha
  | cons x xs =>
    cases xs with
    | nil =>
      simp only [List.mem_singleton] at ha hb
      exact absurd (ha.trans hb.symm) hab
    | cons y ys =>
      simp only [List.length_cons]
      omega


theorem append_underscore_one (s : String) : s ++ "_" ++ natDecimal 1 = s ++ "_1" := by
  have h1 : natDecimal 1 = "1" := by decide
  rw [h1, String.append_assoc]
  have h2 : ("_" : String) ++ "1" = "_1" := by decide
  rw [h2]


theorem append_underscore_two (s : String) : s ++ "_" ++ natDecimal 2 = s ++ "_2" := by
  have h1 : natDecimal 2 = "2" := by decide
  rw [h1, String.append_assoc]
  have h2 : ("_" : String) ++ "2" = "_2" := by decide
  rw [h2]


theorem freshName_of_first_free (names : List String) (base : String)
    (hmem : base ∈ names) (hfree : base ++ "_1" ∉ names) :
    freshName names base = base ++ "_1" := by
  unfold freshName candNames
  rw [List.range_succ_eq_map, List.map_cons]
  rw [List.find?_cons_of_neg _ (by simp [hmem])]
  rw [List.find?_cons_of_pos _ (by simp [append_underscore_one, hfree])]
  simpa using append_underscore_one base


theorem freshName_of_second_free (names : List String) (base : String)
    (h0 : base ∈ names) (h1 : base ++ "_1" ∈ names) (h2 : base ++ "_2" ∉ names) :
    freshName names base = base ++ "_2" := by
  have hne : base ≠ base ++ "_1" := by
    have h := ne_append_underscore base (natDecimal 1)
    rwa [append_underscore_one] at h
  have hlen : 2 ≤ names.length := two_le_length_of_mem_ne h0 h1 hne
  obtain ⟨m, hm⟩ : ∃ m, names.length = m + 2 := ⟨names.length - 2, by omega⟩
  unfold freshName candNames
  rw [hm, List.range_succ_eq_map, List.range_succ_eq_map, List.map_cons, List.map_cons,
    List.map_map, List.map_cons]
  rw [List.find?_cons_of_neg _ (by simp [h0])]
  rw [List.find?_cons_of_neg _ (by simp [append_underscore_one, h1])]
  rw [List.find?_cons_of_pos _ ?hpos]
  case hpos =>
    show (!decide ((fun i => base ++ "_" ++ natDecimal (i + 1)) (Nat.succ 0) ∈ names)) = true
    simp only [Nat.succ_eq_add_one]
    have : (0 : Nat) + 1 + 1 = 2 := rfl
    simp [this, append_underscore_two, h2]
  simpa using append_underscore_two base


theorem tableStep_nodup (st : TablesState) (idx : Nat) (t : RawTable)
    (h : (st.entries.map Prod.fst).Nodup) :
    ((tableStep st idx t).entries.map Prod.fst).Nodup := by
  unfold tableStep
  split_ifs with h1 h2
  · exact h
  · exact h
  · simp only [List.map_append, List.map_cons, List.map_nil]
    rw [List.nodup_append]
    refine ⟨h, List.nodup_singleton _, ?_⟩
    intro a ha hb
    simp only [List.mem_singleton] at hb
    subst hb
    exact freshName_not_mem _ _ ha


theorem processTablesFrom_nodup (ts : List RawTable) :
    ∀ (st : TablesState) (idx : Nat), (st.entries.map Prod.fst).Nodup →
      ((processTablesFrom st idx ts).entries.map Prod.fst).Nodup := by
  induction ts with
  | nil => intro st idx h; exact h
  | cons t ts ih =>
    intro st idx h
    exact ih _ _ (tableStep_nodup st idx t h)


/-- C5: when a base name is already taken the collision loop saves the new
table under the base name suffixed "_1"; when "_1" is also taken it moves
to "_2"; and the names saved by a whole table-extraction run never contain
a duplicate. -/
theorem c5_name_collision_suffix :
    (∀ (names : List String) (base : String), base ∈ names → base ++ "_1" ∉ names →
        freshName names base = base ++ "_1")
  ∧ (∀ (names : List String) (base : String), base ∈ names → base ++ "_1" ∈ names →
        base ++ "_2" ∉ names → freshName names base = base ++ "_2")
  ∧ (∀ ts : List RawTable, ((processTables ts).entries.map Prod.fst).Nodup) :=
  ⟨freshName_of_first_free, freshName_of_second_free,
   fun ts => processTablesFrom_nodup ts ⟨[], []⟩ 0 (by simp)⟩


/-- C5 witness: a second "Balance_Sheet" table is saved as
"Balance_Sheet_1", and a third collision moves to the "_2" suffix. -/
theorem c5_name_collision_suffix_witness :
    freshName ["Balance_Sheet"] "Balance_Sheet" = "Balance_Sheet" ++ "_1"
  ∧ freshName ["Ratios", "Ratios" ++ "_1"] "Ratios" = "Ratios" ++ "_2" :=
  ⟨c5_name_collision_suffix.1 _ _ (by decide) (by decide),
   c5_name_collision_suffix.2.1 _ _ (by decide) (by decide) (by decide)⟩


/-- C6 counterexample: a hyperlink with empty visible text inside a
classified section — its text is not one of the four navigational texts —
is nevertheless not emitted; and the literal scenario in which each of the
two sections holds three links including one "Show More" yields 4 records,
not 5. -/
theorem c6_counterexample :
    sectionAnchorTexts emptyTextSoup = [("annual", "")]
  ∧ "" ∉ navTexts
  ∧ extract_documents_links ujHref emptyTextSoup "https://www.screener.in/company/X/" = []
  ∧ (extract_documents_links ujHref scenarioSoupBothNav
      "https://www.screener.in/company/X/").length = 4 := by
  refine ⟨by decide, by decide, by decide, by decide⟩


/-- C6 (amended): every hyperlink inside a classified section is emitted
as a DocumentLink unless its visible text is empty or its lowercased text
is exactly one of "all"/"show more"/"show all"/"add missing"; on input
with headings "Announcements" (three ordinary links) and "Annual reports"
(three links of which one is "Show More"), exactly 5 records result,
three announcements and two annual. -/
theorem c6_section_link_emission :
    (∀ (uj : String → String → String) (soup : HNode) (base : String) (d : DocLink),
        d ∈ extract_documents_links uj soup base →
          d.text ≠ "" ∧ pyLower d.text ∉ navTexts)
  ∧ (∀ (uj : String → String → String) (soup : HNode) (base cat : String)
        (nodes : List HNode) (a : HNode),
        (cat, nodes) ∈ sectionsOf soup → a ∈ sectionAnchors nodes →
        getTextStrip a ≠ "" → pyLower (getTextStrip a) ∉ navTexts →
          (⟨cat, getTextStrip a, attrVal "href" a, uj base (attrVal "href" a)⟩ : DocLink)
            ∈ extract_documents_links uj soup base)
  ∧ extract_documents_links ujHref scenarioSoup "https://www.screener.in/company/X/"
      = [⟨"announcements", "Board Meeting", "/a1", "/a1"⟩,
         ⟨"announcements", "Result Update", "/a2", "/a2"⟩,
         ⟨"announcements", "Investor Presentation", "/a3", "/a3"⟩,
         ⟨"annual", "Financial Year 2024", "/r1", "/r1"⟩,
         ⟨"annual", "Financial Year 2023", "/r2", "/r2"⟩] := by
  refine ⟨?_, ?_, ?_⟩
  · intro uj soup base d hd
    simp only [extract_documents_links, List.mem_flatMap] at hd
    obtain ⟨s, hs, hd⟩ := hd
    simp only [sectionLinks, List.mem_filterMap] at hd
    obtain ⟨a, ha, hda⟩ := hd
    by_cases hc : getTextStrip a = "" ∨ pyLower (getTextStrip a) ∈ navTexts
    · rw [if_pos hc] at hda
      cases hda
    · rw [if_neg hc] at hda
      injection hda with hda
      subst hda
      push_neg at hc
      exact ⟨hc.1, hc.2⟩
  · intro uj soup base cat nodes a hsec ha ht hnav
    simp only [extract_documents_links, List.mem_flatMap]
    refine ⟨(cat, nodes), hsec, ?_⟩
    simp only [sectionLinks, List.mem_filterMap]
    refine ⟨a, ha, ?_⟩
    rw [if_neg ?hcond]
    case hcond =>
      rintro (h | h)
      · exact ht h
      · exact hnav h
  · decide


/-- C6 witness: the completeness direction applied to a concrete admissible
anchor of the concrete scenario. -/
theorem c6_section_link_emission_witness :
    (⟨"annual", "Financial Year 2024", "/r1", "/r1"⟩ : DocLink)
      ∈ extract_documents_links ujHref scenarioSoup "https://www.screener.in/company/X/" :=
  c6_section_link_emission.2.1 ujHref scenarioSoup "https://www.screener.in/company/X/"
    "annual" [aLink "/r1" "Financial Year 2024", aLink "/r2" "Financial Year 2023",
      aLink "/r3" "Show More"] (aLink "/r1" "Financial Year 2024")
    (by decide) (by decide) (by decide) (by decide)


/-- C8: with no heading containing "documents", and likewise with a
Documents container yielding no `h3`/`h4` sub-headings, the classifier
returns the empty list (and, being a total function of the embedding, it
raises nothing). -/
theorem c8_empty_classifier :
    (∀ (uj : String → String → String) (soup : HNode) (base : String),
        (∀ p ∈ elemPaths soup, docsHeadingPred soup p = false) →
        extract_documents_links uj soup base = [])
  ∧ (∀ (uj : String → String → String) (soup : HNode) (base : String),
        subHeadingPaths soup = [] → extract_documents_links uj soup base = []) := by
  constructor
  · intro uj soup base h
    have hnone : docsHeadingPath? soup = none := by
      apply List.find?_eq_none.mpr
      intro p hp
      simp [h p hp]
    simp [extract_documents_links, sectionsOf, subHeadingPaths, hnone]
  · intro uj soup base h
    simp [extract_documents_links, sectionsOf, h]


/-- C8 witness: a concrete page without a "documents" heading and a
concrete page whose Documents container has no sub-headings both classify
to the empty list. -/
theorem c8_empty_classifier_witness :
    extract_documents_links ujHref noDocsSoup "https://www.screener.in/company/X/" = []
  ∧ extract_documents_links ujHref noSubheadingSoup "https://www.screener.in/company/X/" = [] :=
  ⟨c8_empty_classifier.1 ujHref noDocsSoup _ (by decide),
   c8_empty_classifier.2 ujHref noSubheadingSoup _ (by decide)⟩


end Screener
